import Mathlib

/-!
Verification of the numeric core of `src/just_for_fun/least_squares.py` and of
the directory-tree printer `src/just_for_fun/generate_a_tree.py`.

Numeric arrays are embedded as `List ℚ` (exact arithmetic standing for the
floating-point values of the source).  The Python builtin `float` used by the
data loader is an external library function; the loader is parameterized over
the parsing function, and a concrete decimal parser `pyFloat` (modelling the
builtin on plain decimal literals) is supplied for concrete runs.  Calls to
`sys.exit` and uncaught exceptions are modelled as explicit outcomes.
-/

namespace LeastSquares

/-- `np.mean` of a list: sum divided by length (division by zero yields 0 in ℚ,
    a case never reached under the preconditions of the source). -/
def npMean (l : List ℚ) : ℚ := l.sum / l.length

/-- `np.max` of a nonempty array; the empty case (where numpy raises) is given
    the junk value 0 and is guarded by the callers. -/
def listMax : List ℚ → ℚ
  | [] => 0
  | a :: t => t.foldl max a

/-- `np.min` of a nonempty array; same convention as `listMax`. -/
def listMin : List ℚ → ℚ
  | [] => 0
  | a :: t => t.foldl min a

/-- The denominator `np.sum((x - x_mean) ** 2)` computed by `least_squares_fit`. -/
def fitDenominator (x : List ℚ) : ℚ :=
  (x.map (fun xi => (xi - npMean x) ^ 2)).sum

/-- The numerator `np.sum((x - x_mean) * (y - y_mean))` computed by
    `least_squares_fit` (elementwise product of equal-length arrays = zip). -/
def fitNumerator (x y : List ℚ) : ℚ :=
  ((x.zip y).map (fun p => (p.1 - npMean x) * (p.2 - npMean y))).sum

/-- `least_squares_fit(x, y)` from the source: mean-centered closed form.
    `none` models the `sys.exit(1)` taken when the denominator is zero. -/
def least_squares_fit (x y : List ℚ) : Option (ℚ × ℚ) :=
  let y_mean := npMean y
  let numerator := fitNumerator x y
  let denominator := fitDenominator x
  if denominator = 0 then none
  else
    let slope := numerator / denominator
    let intercept := y_mean - slope * npMean x
    some (slope, intercept)

/-- `calculate_sensitivity(x, y, slope)` from the source: returns `abs(slope)`,
    ignoring the array arguments. -/
def calculate_sensitivity (_x _y : List ℚ) (slope : ℚ) : ℚ := |slope|

/-- The warning string printed by `calculate_nonlinearity_error` when the
    y-range is zero. -/
def degenerateRangeWarning : String := "警告: x值没有变化，非线性误差计算可能不准确"

/-- `calculate_nonlinearity_error(x, y, slope, intercept)` from the source.
    Returns the error value together with the list of warnings printed;
    `none` models the numpy exception raised by `np.max` on an empty array. -/
def calculate_nonlinearity_error (x y : List ℚ) (slope intercept : ℚ) :
    Option (ℚ × List String) :=
  match x, y with
  | [], _ => none
  | _, [] => none
  | _, _ =>
    let y_fit := x.map (fun xi => slope * xi + intercept)
    let deviations := (y.zip y_fit).map (fun p => |p.1 - p.2|)
    let max_deviation := listMax deviations
    let y_range := listMax y - listMin y
    if y_range = 0 then some (0, [degenerateRangeWarning])
    else some ((max_deviation / y_range) * 100, [])

/-- Model of Python `str.strip()`: drop whitespace from both ends.  Strings
    are handled as `List Char` so that concrete runs compute. -/
def pyStrip (cs : List Char) : List Char :=
  ((cs.dropWhile Char.isWhitespace).reverse.dropWhile Char.isWhitespace).reverse

/-- Model of Python `str.split(sep)` for a one-character separator: splitting
    the empty string gives `[""]`, adjacent separators give empty parts. -/
def pySplit (sep : Char) : List Char → List (List Char)
  | [] => [[]]
  | c :: rest =>
    let r := pySplit sep rest
    if c = sep then [] :: r
    else
      match r with
      | h :: t => (c :: h) :: t
      | [] => [[c]]

/-- Accumulate the value of a digit string; `none` when a non-digit occurs. -/
def digitsToNat (cs : List Char) : Option ℕ :=
  cs.foldl
    (fun acc c => acc.bind (fun n => if c.isDigit then some (10 * n + (c.toNat - 48)) else none))
    (some 0)

/-- Unsigned decimal literal: `digits`, `digits.digits`, `digits.` or `.digits`. -/
def parseUnsigned (cs : List Char) : Option ℚ :=
  match pySplit '.' cs with
  | [intp] =>
    if intp = [] then none
    else (digitsToNat intp).map (fun n => (n : ℚ))
  | [intp, fracp] =>
    if intp = [] && fracp = [] then none
    else
      (digitsToNat intp).bind (fun i =>
        (digitsToNat fracp).map (fun f =>
          (i : ℚ) + (f : ℚ) / (10 : ℚ) ^ fracp.length))
  | _ => none

/-- Model of the Python builtin `float` (an external library function) on the
    decimal-literal fragment: optional surrounding whitespace, optional sign,
    digits with an optional decimal point.  The general loader theorems are
    parameterized over the parsing function; this concrete model is used for
    concrete runs. -/
def pyFloat (s : List Char) : Option ℚ :=
  match pyStrip s with
  | '-' :: rest => (parseUnsigned rest).map Neg.neg
  | '+' :: rest => parseUnsigned rest
  | t => parseUnsigned t

/-- One iteration of the loop body of `read_data` on an already-stripped
    nonblank line: `x, y = map(float, line.split(','))` succeeds iff the split
    has exactly two parts and both parse as floats. -/
def parseLine (pf : List Char → Option ℚ) (line : List Char) : Option (ℚ × ℚ) :=
  match pySplit ',' line with
  | [a, b] =>
    match pf a, pf b with
    | some x, some y => some (x, y)
    | _, _ => none
  | _ => none

/-- The warning printed by `read_data` for a line that fails to parse. -/
def lineWarning (t : List Char) : String := "警告: 无法解析行: " ++ String.mk t ++ "，已跳过"

/-- `read_data` from the source, on the lines of an already-opened file
    (the unreadable-file branch, which exits the process, is outside this
    model).  Returns the x-array, the y-array and the warnings printed,
    in input order. -/
def read_data (pf : List Char → Option ℚ) : List String → List ℚ × List ℚ × List String
  | [] => ([], [], [])
  | line :: rest =>
    let t := pyStrip line.toList
    if t = [] then read_data pf rest
    else
      match parseLine pf t with
      | some (x, y) =>
        let r := read_data pf rest
        (x :: r.1, y :: r.2.1, r.2.2)
      | none =>
        let r := read_data pf rest
        (r.1, r.2.1, lineWarning t :: r.2.2)

/-- Written from the spec's words: `slope = Σ((xᵢ − x̄)(yᵢ − ȳ)) / Σ((xᵢ − x̄)²)`,
    with `x̄`, `ȳ` the arithmetic means.  To be compared with the slope
    computed by `least_squares_fit`. -/
def spec_slope (x y : List ℚ) : ℚ :=
  ((x.zip y).map (fun p => (p.1 - npMean x) * (p.2 - npMean y))).sum /
    (x.map (fun xi => (xi - npMean x) ^ 2)).sum

/-- Written from the spec's words: `intercept = ȳ − slope·x̄`. -/
def spec_intercept (x y : List ℚ) : ℚ :=
  npMean y - spec_slope x y * npMean x

/-- Written from the spec's words: `100 ·` the maximum over i of
    `|yᵢ − (slope·xᵢ + intercept)|`, divided by `max(y) − min(y)`. -/
def spec_nonlinearity (x y : List ℚ) (slope intercept : ℚ) : ℚ :=
  100 * listMax ((x.zip y).map (fun p => |p.2 - (slope * p.1 + intercept)|)) /
    (listMax y - listMin y)

/-- Spec-side description of the loader's output: the `(x, y)` pairs of the
    stripped nonblank lines that parse, in input order. -/
def loadedPairs (pf : List Char → Option ℚ) (lines : List String) : List (ℚ × ℚ) :=
  ((lines.map (fun l => pyStrip l.toList)).filter (fun t => !t.isEmpty)).filterMap
    (parseLine pf)

/-- Spec-side description of the malformed lines: stripped nonblank lines that
    fail to parse, in input order. -/
def malformedLines (pf : List Char → Option ℚ) (lines : List String) : List (List Char) :=
  (lines.map (fun l => pyStrip l.toList)).filter
    (fun t => !t.isEmpty && (parseLine pf t).isNone)

/-- Outcome of a Python call at process level: either `sys.exit(code)` (also
    covering an exception that `main` catches and converts to `sys.exit(1)`),
    or a normal return. -/
inductive PyOutcome (α : Type) where
  | exit (code : ℕ)
  | ret (val : α)
deriving DecidableEq, Repr

/-- The error printed by `process_data_file` when fewer than 2 points loaded. -/
def tooFewPointsError : String := "错误: 数据点数量不足，至少需要2个点进行拟合"

/-- The error printed by `least_squares_fit` before exiting on zero variance. -/
def zeroVarianceError : String := "错误: x值没有变化，无法进行线性拟合"

/-- `process_data_file` from the source, on the lines of the data file:
    load, check the point count, fit, derive the two metrics.  Returns the
    diagnostics printed (warnings and errors; the result report and the plot
    are presentation-layer output, not modelled) together with the outcome:
    `.ret none` models the bare `return` on fewer than 2 points, `.exit 1`
    models `sys.exit(1)` from the fit (or an exception caught by `main`). -/
def process_data_file (pf : List Char → Option ℚ) (lines : List String) :
    List String × PyOutcome (Option (ℚ × ℚ × ℚ × ℚ)) :=
  let r := read_data pf lines
  let x := r.1
  let y := r.2.1
  let warnings := r.2.2
  if x.length < 2 then (warnings ++ [tooFewPointsError], .ret none)
  else
    match least_squares_fit x y with
    | none => (warnings ++ [zeroVarianceError], .exit 1)
    | some (slope, intercept) =>
      let sensitivity := calculate_sensitivity x y slope
      match calculate_nonlinearity_error x y slope intercept with
      | none => (warnings, .exit 1)
      | some (nl, ws) => (warnings ++ ws, .ret (some (slope, intercept, sensitivity, nl)))

/-- Exit status of `main` on a readable data file with the given lines:
    a `sys.exit(code)` inside the pipeline sets the status, a normal return
    (with or without a result) ends the process with status 0. -/
def mainExitCode (pf : List Char → Option ℚ) (lines : List String) : ℕ :=
  match (process_data_file pf lines).2 with
  | .exit c => c
  | .ret _ => 0

end LeastSquares

namespace GenerateATree

/-- `'  ' * depth` from the source; a non-positive depth yields the empty
    string, as in Python. -/
def indentStr (depth : ℤ) : String := String.join (List.replicate depth.toNat "  ")

/-- Model of `os.path.basename` on POSIX-style paths: the part after the last
    separator. -/
def pyBasename (path : String) : String := (path.splitOn "/").getLastD ""

/-- Model of `os.path.join` for a relative child name. -/
def pyJoin (path name : String) : String := path ++ "/" ++ name

/-- `generate_tree(path, max_depth, depth)` from the source.  The filesystem
    (the external collaborators `os.path.isdir` and `os.listdir`) is a
    parameter: `fs path = some names` when `path` is a directory with entries
    `names`, `fs path = none` otherwise.  `fs` may describe an arbitrary, even
    cyclic, graph of paths; the recursion terminates because each call
    increases `depth` by one toward the `max_depth` cutoff. -/
def generate_tree (fs : String → Option (List String)) (path : String)
    (max_depth : ℤ) (depth : ℤ) : String :=
  if depth ≥ max_depth then ""
  else
    match fs path with
    | some names =>
      let sortedNames := names.mergeSort (fun a b => decide (a ≤ b))
      (indentStr depth ++ "- **" ++ pyBasename path ++ "/**\n") ++
        (sortedNames.map
          (fun name => generate_tree fs (pyJoin path name) max_depth (depth + 1))).foldl
          (· ++ ·) ""
    | none => indentStr depth ++ "- " ++ pyBasename path ++ "\n"
termination_by (max_depth - depth).toNat
decreasing_by omega

end GenerateATree

open LeastSquares GenerateATree

/-! ### Helper lemmas -/

theorem sum_sq_eq_zero_iff (l : List ℚ) (c : ℚ) :
    (l.map (fun a => (a - c) ^ 2)).sum = 0 ↔ ∀ a ∈ l, a = c := by
  induction l with
  | nil => simp
  | cons a t ih =>
    simp only [List.map_cons, List.sum_cons, List.mem_cons]
    have h1 : (0 : ℚ) ≤ (a - c) ^ 2 := sq_nonneg _
    have h2 : (0 : ℚ) ≤ (t.map (fun b => (b - c) ^ 2)).sum := by
      refine List.sum_nonneg ?_
      intro q hq
      simp only [List.mem_map] at hq
      obtain ⟨b, _, rfl⟩ := hq
      exact sq_nonneg _
    rw [add_eq_zero_iff_of_nonneg h1 h2, ih,
      pow_eq_zero_iff (two_ne_zero), sub_eq_zero]
    constructor
    · rintro ⟨ha, ht⟩ b hb
      rcases hb with rfl | hb
      · exact ha
      · exact ht b hb
    · intro h
      exact ⟨h a (Or.inl rfl), fun b hb => h b (Or.inr hb)⟩

theorem sum_of_const (l : List ℚ) (c : ℚ) (h : ∀ a ∈ l, a = c) :
    l.sum = l.length * c := by
  induction l with
  | nil => simp
  | cons a t ih =>
    simp only [List.sum_cons, List.length_cons]
    rw [h a (List.mem_cons_self a t), ih (fun b hb => h b (List.mem_cons_of_mem a hb))]
    push_cast
    ring

theorem length_mul_npMean (l : List ℚ) (h : l ≠ []) :
    (l.length : ℚ) * npMean l = l.sum := by
  have h0 : l.length ≠ 0 := fun hh => h (List.length_eq_zero.mp hh)
  have hl : (l.length : ℚ) ≠ 0 := Nat.cast_ne_zero.mpr h0
  rw [npMean, mul_comm, div_mul_cancel₀ _ hl]

theorem resid_sum_eq (s i : ℚ) : ∀ (x y : List ℚ), x.length = y.length →
    ((x.zip y).map (fun p => p.2 - (s * p.1 + i))).sum
      = y.sum - s * x.sum - x.length * i
  | [], [], _ => by simp
  | [], _ :: _, h => by simp at h
  | _ :: _, [], h => by simp at h
  | a :: t, b :: u, h => by
    simp only [List.zip_cons_cons, List.map_cons, List.sum_cons, List.length_cons]
    rw [resid_sum_eq s i t u (by simpa using h)]
    push_cast
    ring

theorem deviations_zip_swap (s i : ℚ) : ∀ (x y : List ℚ), x.length = y.length →
    (y.zip (x.map (fun xi => s * xi + i))).map (fun p => |p.1 - p.2|)
      = (x.zip y).map (fun p => |p.2 - (s * p.1 + i)|)
  | [], [], _ => by simp
  | [], _ :: _, h => by simp at h
  | _ :: _, [], h => by simp at h
  | a :: t, b :: u, h => by
    simp only [List.map_cons, List.zip_cons_cons]
    rw [deviations_zip_swap s i t u (by simpa using h)]

theorem foldl_max_zero : ∀ l : List ℚ, (∀ a ∈ l, a = 0) → l.foldl max 0 = 0
  | [], _ => rfl
  | a :: t, h => by
    have ha : a = 0 := h a (List.mem_cons_self a t)
    simp only [List.foldl_cons, ha, max_self]
    exact foldl_max_zero t (fun b hb => h b (List.mem_cons_of_mem a hb))

theorem listMax_zeros (l : List ℚ) (hne : l ≠ []) (h : ∀ a ∈ l, a = 0) :
    listMax l = 0 := by
  cases l with
  | nil => exact absurd rfl hne
  | cons a t =>
    have ha : a = 0 := h a (List.mem_cons_self a t)
    rw [listMax, ha]
    exact foldl_max_zero t (fun b hb => h b (List.mem_cons_of_mem a hb))

theorem fitDenominator_eq_zero_iff (x : List ℚ) :
    fitDenominator x = 0 ↔ ∀ a ∈ x, ∀ b ∈ x, a = b := by
  rw [fitDenominator, sum_sq_eq_zero_iff]
  constructor
  · intro h a ha b hb
    rw [h a ha, h b hb]
  · intro h a ha
    cases x with
    | nil => simp at ha
    | cons c t =>
      have hac : a = c := h a ha c (List.mem_cons_self c t)
      have hall : ∀ b ∈ (c :: t), b = c := fun b hb => h b hb c (List.mem_cons_self c t)
      have hl : (((c :: t).length : ℚ)) ≠ 0 := by
        simp only [List.length_cons]
        push_cast
        positivity
      have hmean : npMean (c :: t) = c := by
        rw [npMean, sum_of_const _ c hall, mul_comm, mul_div_assoc, div_self hl, mul_one]
      rw [hmean, hac]

theorem fit_none_iff (x y : List ℚ) :
    least_squares_fit x y = none ↔ fitDenominator x = 0 := by
  rw [least_squares_fit]
  split_ifs with h <;> simp [h]

/-! ### Claim theorems -/

/-- Claim C1: for every pair of equal-length sequences with nonzero
x-variance, `least_squares_fit` returns exactly the spec's slope
`Σ((xᵢ − x̄)(yᵢ − ȳ)) / Σ((xᵢ − x̄)²)` and intercept `ȳ − slope·x̄`. -/
theorem fit_matches_spec_formula (x y : List ℚ)
    (_hlen : x.length = y.length) (hvar : fitDenominator x ≠ 0) :
    least_squares_fit x y = some (spec_slope x y, spec_intercept x y) := by
  simp only [least_squares_fit, if_neg hvar]
  rfl

/-- Witness for C1 at `x = [1, 2, 3]`, `y = [2, 4, 6]`. -/
theorem fit_matches_spec_formula_witness :
    ([1, 2, 3] : List ℚ).length = ([2, 4, 6] : List ℚ).length
    ∧ fitDenominator [1, 2, 3] ≠ 0
    ∧ least_squares_fit [1, 2, 3] [2, 4, 6]
        = some (spec_slope [1, 2, 3] [2, 4, 6], spec_intercept [1, 2, 3] [2, 4, 6]) :=
  ⟨rfl, by norm_num [fitDenominator, npMean],
    fit_matches_spec_formula [1, 2, 3] [2, 4, 6] rfl (by norm_num [fitDenominator, npMean])⟩

/-- Claim C2: the fit fails (the modelled `sys.exit(1)`) exactly when the
denominator `Σ(xᵢ − x̄)²` is zero, which happens exactly when all x-values are
identical; in particular it fails on the points `(1,1), (1,2)`, and a nonzero
denominator never causes failure. -/
theorem fit_fails_iff_zero_denominator :
    (∀ x y : List ℚ, least_squares_fit x y = none ↔ fitDenominator x = 0)
    ∧ (∀ x : List ℚ, fitDenominator x = 0 ↔ ∀ a ∈ x, ∀ b ∈ x, a = b)
    ∧ least_squares_fit [1, 1] [1, 2] = none := by
  refine ⟨fit_none_iff, fitDenominator_eq_zero_iff, ?_⟩
  simp [least_squares_fit, fitDenominator, npMean]

/-- Claim C7: `calculate_sensitivity` returns `|slope|` for all inputs, with
no failure mode, and in particular returns `3.5` for slope `-3.5`. -/
theorem sensitivity_is_abs_slope :
    (∀ (x y : List ℚ) (s : ℚ), calculate_sensitivity x y s = |s|)
    ∧ calculate_sensitivity [] [] (-(7 / 2)) = 7 / 2 := by
  refine ⟨fun _ _ _ => rfl, ?_⟩
  rw [calculate_sensitivity, abs_neg, abs_of_nonneg]
  norm_num

/-- Claim C9: `calculate_sensitivity` depends only on its slope argument;
the two array arguments never affect the result. -/
theorem sensitivity_independent_of_arrays (x y xa ya : List ℚ) (s : ℚ) :
    calculate_sensitivity x y s = calculate_sensitivity xa ya s := rfl

/-- Claim C10: `generate_tree` terminates (it is defined by recursion on the
measure `max_depth − depth`, which each recursive call decreases), and at any
depth at or beyond `max_depth` it returns the empty string, for every
filesystem, path and integer pair of depths. -/
theorem generate_tree_depth_cutoff (fs : String → Option (List String))
    (path : String) (max_depth depth : ℤ) (h : depth ≥ max_depth) :
    generate_tree fs path max_depth depth = "" := by
  unfold generate_tree
  simp [h]

/-- Witness for C10 at a one-file filesystem, `max_depth = 0`, `depth = 0`. -/
theorem generate_tree_depth_cutoff_witness :
    (0 : ℤ) ≥ 0 ∧ generate_tree (fun _ => none) "a" 0 0 = "" :=
  ⟨le_refl 0, generate_tree_depth_cutoff (fun _ => none) "a" 0 0 (le_refl 0)⟩

/-- Claim C6: whenever the sample set has two distinct x-values, the fit
succeeds and its slope and intercept make the residuals
`Σ(yᵢ − (slope·xᵢ + intercept))` sum to exactly zero over ℚ. -/
theorem residuals_sum_to_zero (x y : List ℚ) (hlen : x.length = y.length)
    (a b : ℚ) (ha : a ∈ x) (hb : b ∈ x) (hab : a ≠ b) :
    ∃ s i, least_squares_fit x y = some (s, i)
      ∧ ((x.zip y).map (fun p => p.2 - (s * p.1 + i))).sum = 0 := by
  have hx : x ≠ [] := by
    intro h
    subst h
    simp at ha
  have hy : y ≠ [] := by
    intro h
    rw [h, List.length_nil] at hlen
    exact hx (List.length_eq_zero.mp hlen)
  have hden : fitDenominator x ≠ 0 := by
    intro h0
    exact hab (((fitDenominator_eq_zero_iff x).mp h0) a ha b hb)
  refine ⟨fitNumerator x y / fitDenominator x,
    npMean y - fitNumerator x y / fitDenominator x * npMean x, ?_, ?_⟩
  · simp only [least_squares_fit, if_neg hden]
  · set s := fitNumerator x y / fitDenominator x with hs
    rw [resid_sum_eq s _ x y hlen]
    have hxm := length_mul_npMean x hx
    have hym := length_mul_npMean y hy
    have hlq : ((x.length : ℚ)) = ((y.length : ℚ)) := by exact_mod_cast hlen
    linear_combination (-1 : ℚ) * hym + s * hxm - npMean y * hlq

/-- Witness for C6 at `x = [1, 2, 3]`, `y = [2, 4, 6]`, distinct x-values 1, 2. -/
theorem residuals_sum_to_zero_witness :
    ([1, 2, 3] : List ℚ).length = ([2, 4, 6] : List ℚ).length
    ∧ (1 : ℚ) ∈ ([1, 2, 3] : List ℚ) ∧ (2 : ℚ) ∈ ([1, 2, 3] : List ℚ) ∧ (1 : ℚ) ≠ 2
    ∧ ∃ s i, least_squares_fit [1, 2, 3] [2, 4, 6] = some (s, i)
      ∧ ((([1, 2, 3] : List ℚ).zip ([2, 4, 6] : List ℚ)).map
          (fun p => p.2 - (s * p.1 + i))).sum = 0 :=
  ⟨rfl, by norm_num, by norm_num, by norm_num,
    residuals_sum_to_zero [1, 2, 3] [2, 4, 6] rfl 1 2 (by norm_num) (by norm_num)
      (by norm_num)⟩

/-- Claim C3: with a nonzero y-range, `calculate_nonlinearity_error` returns
`100 ·` the maximum absolute residual divided by `max(y) − min(y)` (the
denominator is the y-range), with no warning; and on a perfectly linear
sample set the value is 0. -/
theorem nonlinearity_error_spec (x y : List ℚ) (s i : ℚ)
    (hlen : x.length = y.length) (hy : y ≠ [])
    (hrange : listMax y ≠ listMin y) :
    calculate_nonlinearity_error x y s i = some (spec_nonlinearity x y s i, [])
    ∧ ((∀ p ∈ x.zip y, p.2 = s * p.1 + i) → spec_nonlinearity x y s i = 0) := by
  have hx : x ≠ [] := by
    intro h
    subst h
    rw [List.length_nil] at hlen
    exact hy (List.length_eq_zero.mp hlen.symm)
  constructor
  · cases x with
    | nil => exact absurd rfl hx
    | cons a t =>
      cases y with
      | nil => exact absurd rfl hy
      | cons b u =>
        have hr : listMax (b :: u) - listMin (b :: u) ≠ 0 := sub_ne_zero.mpr hrange
        simp only [calculate_nonlinearity_error]
        rw [if_neg hr, deviations_zip_swap s i (a :: t) (b :: u) hlen, spec_nonlinearity]
        rw [mul_comm, mul_div_assoc]
  · intro hres
    have hdev : ∀ q ∈ (x.zip y).map (fun p => |p.2 - (s * p.1 + i)|), q = 0 := by
      intro q hq
      simp only [List.mem_map] at hq
      obtain ⟨p, hp, rfl⟩ := hq
      rw [hres p hp]
      simp
    have hne2 : (x.zip y).map (fun p => |p.2 - (s * p.1 + i)|) ≠ [] := by
      cases x with
      | nil => exact absurd rfl hx
      | cons a t =>
        cases y with
        | nil => exact absurd rfl hy
        | cons b u => simp
    rw [spec_nonlinearity, listMax_zeros _ hne2 hdev]
    simp

/-- Witness for C3 at `x = [1, 2, 3]`, `y = [2, 4, 6]`, slope 2, intercept 0. -/
theorem nonlinearity_error_spec_witness :
    ([1, 2, 3] : List ℚ).length = ([2, 4, 6] : List ℚ).length
    ∧ ([2, 4, 6] : List ℚ) ≠ []
    ∧ listMax [2, 4, 6] ≠ listMin [2, 4, 6]
    ∧ (calculate_nonlinearity_error [1, 2, 3] [2, 4, 6] 2 0
        = some (spec_nonlinearity [1, 2, 3] [2, 4, 6] 2 0, [])
      ∧ ((∀ p ∈ ([1, 2, 3] : List ℚ).zip ([2, 4, 6] : List ℚ), p.2 = 2 * p.1 + 0)
          → spec_nonlinearity [1, 2, 3] [2, 4, 6] 2 0 = 0)) :=
  ⟨rfl, by simp, by norm_num [listMax, listMin, max_def, min_def],
    nonlinearity_error_spec [1, 2, 3] [2, 4, 6] 2 0 rfl (by simp)
      (by norm_num [listMax, listMin, max_def, min_def])⟩

/-- Claim C4: with a zero y-range (all y-values identical), the nonlinearity
error is 0 with the degenerate-range warning printed, and the call returns
normally (no division by zero, no abort). -/
theorem nonlinearity_error_degenerate_range (x y : List ℚ) (s i : ℚ)
    (hlen : x.length = y.length) (hy : y ≠ [])
    (hrange : listMax y = listMin y) :
    calculate_nonlinearity_error x y s i = some (0, [degenerateRangeWarning]) := by
  have hx : x ≠ [] := by
    intro h
    subst h
    rw [List.length_nil] at hlen
    exact hy (List.length_eq_zero.mp hlen.symm)
  cases x with
  | nil => exact absurd rfl hx
  | cons a t =>
    cases y with
    | nil => exact absurd rfl hy
    | cons b u =>
      simp only [calculate_nonlinearity_error]
      rw [if_pos (sub_eq_zero.mpr hrange)]

/-- Witness for C4 at `x = [1, 2]`, `y = [5, 5]`, slope 0, intercept 5. -/
theorem nonlinearity_error_degenerate_range_witness :
    ([1, 2] : List ℚ).length = ([5, 5] : List ℚ).length
    ∧ ([5, 5] : List ℚ) ≠ []
    ∧ listMax [5, 5] = listMin [5, 5]
    ∧ calculate_nonlinearity_error [1, 2] [5, 5] 0 5
        = some (0, [degenerateRangeWarning]) :=
  ⟨rfl, by simp, by norm_num [listMax, listMin, max_def, min_def],
    nonlinearity_error_degenerate_range [1, 2] [5, 5] 0 5 rfl (by simp)
      (by norm_num [listMax, listMin, max_def, min_def])⟩

/-- Claim C8: the loader returns equal-length x- and y-sequences holding
exactly the parsed values of the stripped nonblank lines that parse, in input
order, and one warning per malformed nonblank line (the rest of the input is
still processed), for every parsing function. -/
theorem read_data_loader_spec (pf : List Char → Option ℚ) (lines : List String) :
    read_data pf lines
      = ((loadedPairs pf lines).map Prod.fst, (loadedPairs pf lines).map Prod.snd,
          (malformedLines pf lines).map lineWarning)
    ∧ (read_data pf lines).1.length = (read_data pf lines).2.1.length := by
  have main : ∀ ls : List String, read_data pf ls
      = ((loadedPairs pf ls).map Prod.fst, (loadedPairs pf ls).map Prod.snd,
          (malformedLines pf ls).map lineWarning) := by
    intro ls
    induction ls with
    | nil => rfl
    | cons line rest ih =>
      by_cases hb : pyStrip line.toList = []
      · simp only [read_data, loadedPairs, malformedLines, List.map_cons,
          List.filter_cons, hb, List.isEmpty_nil, Bool.not_true, Bool.false_and,
          if_neg, Bool.false_eq_true, not_false_eq_true, if_pos]
        exact ih
      · have hbe : (pyStrip line.toList).isEmpty = false := by
          cases hc : pyStrip line.toList with
          | nil => exact absurd hc hb
          | cons _ _ => rfl
        cases hp : parseLine pf (pyStrip line.toList) with
        | some xy =>
          simp only [read_data, loadedPairs, malformedLines, List.map_cons,
            List.filter_cons, hbe, Bool.not_false, if_pos, hp, Option.isNone_some,
            Bool.true_and, Bool.false_eq_true, not_false_eq_true, if_neg,
            List.filterMap_cons, hb]
          simp only [loadedPairs, malformedLines] at ih
          rw [ih]
        | none =>
          simp only [read_data, loadedPairs, malformedLines, List.map_cons,
            List.filter_cons, hbe, Bool.not_false, if_pos, hp, Option.isNone_none,
            Bool.true_and, List.filterMap_cons]
          simp only [loadedPairs, malformedLines] at ih
          rw [ih, if_neg hb]
  refine ⟨main lines, ?_⟩
  rw [main lines]
  simp

/-- Claim C5 counterexample: a run whose readable data file holds exactly one
valid point reports the error yet terminates with exit status 0 — not the
non-zero status the claim requires. -/
theorem few_points_exit_status_zero_cex :
    (read_data pyFloat ["1,2"]).1.length < 2
    ∧ tooFewPointsError ∈ (process_data_file pyFloat ["1,2"]).1
    ∧ mainExitCode pyFloat ["1,2"] = 0 := by decide

/-- Claim C5 as amended: with fewer than 2 valid points the error is printed
and `process_data_file` returns `None` without fitting; the process then
terminates normally, with exit status 0. -/
theorem few_points_reported_and_normal_exit (pf : List Char → Option ℚ)
    (lines : List String) (h : (read_data pf lines).1.length < 2) :
    (process_data_file pf lines).2 = PyOutcome.ret none
    ∧ tooFewPointsError ∈ (process_data_file pf lines).1
    ∧ mainExitCode pf lines = 0 := by
  have hp : process_data_file pf lines
      = ((read_data pf lines).2.2 ++ [tooFewPointsError], PyOutcome.ret none) := by
    simp only [process_data_file]
    rw [if_pos h]
  refine ⟨by rw [hp], by simp [hp], by simp [mainExitCode, hp]⟩

/-- Witness for the amended C5 at the single-point input line `1,2`. -/
theorem few_points_reported_and_normal_exit_witness :
    (read_data pyFloat ["1,2"]).1.length < 2
    ∧ ((process_data_file pyFloat ["1,2"]).2 = PyOutcome.ret none
      ∧ tooFewPointsError ∈ (process_data_file pyFloat ["1,2"]).1
      ∧ mainExitCode pyFloat ["1,2"] = 0) :=
  ⟨by decide, few_points_reported_and_normal_exit pyFloat ["1,2"] (by decide)⟩

